import Mathlib

/-!
Verification development for the pvs_education_contacts batch orchestration
engine.  The definitions below are shallow embeddings of the TypeScript
modules src/utils/retryHelper.ts (withRetry, isRetryableError, CircuitBreaker,
RateLimiter), src/utils/progressTracker.ts (ProgressTracker) and
src/orchestrator.ts (Orchestrator).  Machine floats are modelled as rationals,
thrown JavaScript errors as a structure carrying the message and the names of
the classes in the prototype chain, and asynchronous sequencing as explicit
state passing.
-/

/-- A thrown JavaScript Error value: its message and the names of every class
in its prototype chain (for instanceof checks). -/
structure JsError where
  message : String
  classes : List String
deriving DecidableEq, Repr

/-- Substring occurrence on character lists, the semantics of the JavaScript
String.prototype.includes test used by isRetryableError. -/
def subOccurs (pat : List Char) : List Char → Bool
  | [] => pat.isEmpty
  | c :: rest => pat.isPrefixOf (c :: rest) || subOccurs pat rest

/-- s.includes pat for strings. -/
def containsSub (s pat : String) : Bool := subOccurs pat.data s.data

/-- JavaScript toLowerCase on the ASCII messages thrown by this repository,
character by character. -/
def lowerStr (s : String) : String := String.mk (s.data.map Char.toLower)

/-- Embeds RetryOptions from src/utils/retryHelper.ts.  Retryable error
classes are identified by class name. -/
structure RetryOptions where
  maxRetries : Nat
  initialDelay : ℚ
  maxDelay : ℚ
  backoffFactor : ℚ
  retryableErrors : List String
deriving DecidableEq, Repr

/-- DEFAULT_OPTIONS of src/utils/retryHelper.ts (the onRetry callback carries
no state and is omitted). -/
def DEFAULT_OPTIONS : RetryOptions :=
  { maxRetries := 3, initialDelay := 1000, maxDelay := 30000,
    backoffFactor := 2, retryableErrors := [] }

/-- Options passed as an object literal with only maxRetries set, merged over
DEFAULT_OPTIONS by the spread in withRetry. -/
def optsWithMaxRetries (m : Nat) : RetryOptions :=
  { DEFAULT_OPTIONS with maxRetries := m }

/-- The transient-message keywords of isRetryableError. -/
def retryKeywords : List String :=
  ["network", "timeout", "econnrefused", "enotfound", "econnreset", "etimedout"]

/-- The lower-cased message matches one of the transient keywords. -/
def messageIsTransient (msg : String) : Bool :=
  retryKeywords.any (fun k => containsSub (lowerStr msg) k)

/-- Embeds isRetryableError of src/utils/retryHelper.ts for thrown Error
instances (every throw site of the repository throws an Error). -/
def isRetryableError (e : JsError) (retryableErrors : List String) : Bool :=
  if messageIsTransient e.message then true
  else if retryableErrors.length > 0 then
    retryableErrors.any (fun c => e.classes.contains c)
  else true

/-- Math.pow with a natural exponent, as used for backoffFactor ^ attempt. -/
def ratPow (q : ℚ) : Nat → ℚ
  | 0 => 1
  | n + 1 => ratPow q n * q

/-- Math.min on the rationals standing in for JavaScript numbers. -/
def ratMin (a b : ℚ) : ℚ := if a ≤ b then a else b

/-- The backoff delay computed before the retry of the given attempt:
Math.min(initialDelay * Math.pow(backoffFactor, attempt), maxDelay). -/
def retryDelay (opts : RetryOptions) (attempt : Nat) : ℚ :=
  ratMin (opts.initialDelay * ratPow opts.backoffFactor attempt) opts.maxDelay

/-- Observable outcome of a withRetry call: the returned or rethrown value,
how many times the wrapped operation was invoked, and the backoff delays
slept between attempts, in order. -/
structure RetryResult (A : Type) where
  result : Except JsError A
  invocations : Nat
  delays : List ℚ

/-- The retry loop of withRetry from the given attempt index with the given
number of further attempts remaining.  The operation is modelled as a map
from invocation index to its outcome.  With no attempts remaining the loop
is at attempt maxRetries: an error, retryable or not, is rethrown. -/
def withRetryFrom (op : Nat → Except JsError A) (opts : RetryOptions) :
    Nat → Nat → RetryResult A
  | attempt, 0 =>
    match op attempt with
    | Except.ok a => ⟨Except.ok a, 1, []⟩
    | Except.error e => ⟨Except.error e, 1, []⟩
  | attempt, r + 1 =>
    match op attempt with
    | Except.ok a => ⟨Except.ok a, 1, []⟩
    | Except.error e =>
      if isRetryableError e opts.retryableErrors then
        let rest := withRetryFrom op opts (attempt + 1) r
        ⟨rest.result, rest.invocations + 1, retryDelay opts attempt :: rest.delays⟩
      else ⟨Except.error e, 1, []⟩

/-- Embeds withRetry of src/utils/retryHelper.ts: the loop runs attempts
0 .. maxRetries. -/
def withRetry (op : Nat → Except JsError A) (opts : RetryOptions) : RetryResult A :=
  withRetryFrom op opts 0 opts.maxRetries

/-- RetryConfigs.network of src/utils/retryHelper.ts (retryableErrors filled
from DEFAULT_OPTIONS by the merge in withRetry). -/
def RetryConfigsNetwork : RetryOptions :=
  { maxRetries := 5, initialDelay := 1000, maxDelay := 30000,
    backoffFactor := 2, retryableErrors := [] }

/-- RetryConfigs.database of src/utils/retryHelper.ts. -/
def RetryConfigsDatabase : RetryOptions :=
  { maxRetries := 3, initialDelay := 500, maxDelay := 5000,
    backoffFactor := 3 / 2, retryableErrors := [] }

/-- RetryConfigs.api of src/utils/retryHelper.ts. -/
def RetryConfigsApi : RetryOptions :=
  { maxRetries := 3, initialDelay := 2000, maxDelay := 20000,
    backoffFactor := 2, retryableErrors := [] }

/-- RetryConfigs.file of src/utils/retryHelper.ts. -/
def RetryConfigsFile : RetryOptions :=
  { maxRetries := 2, initialDelay := 100, maxDelay := 1000,
    backoffFactor := 2, retryableErrors := [] }

/-- Circuit breaker states of src/utils/retryHelper.ts. -/
inductive CBState where
  | closed
  | opened
  | halfOpen
deriving DecidableEq, Repr

/-- The mutable fields and constructor parameters of class CircuitBreaker. -/
structure CircuitBreaker where
  failures : Nat
  lastFailureTime : ℚ
  state : CBState
  threshold : Nat
  timeout : ℚ
deriving DecidableEq, Repr

/-- A freshly constructed CircuitBreaker (failures 0, lastFailureTime 0,
state closed). -/
def CircuitBreaker.mkNew (threshold : Nat) (timeout : ℚ) : CircuitBreaker :=
  ⟨0, 0, CBState.closed, threshold, timeout⟩

/-- What a single CircuitBreaker.execute call produced. -/
inductive CBOutcome (A : Type) where
  | ok (a : A)
  | err (e : JsError)
  | breakerOpen
deriving DecidableEq, Repr

/-- Result of one execute call: the outcome, whether the wrapped operation
was invoked, and the breaker state afterwards. -/
structure CBResult (A : Type) where
  outcome : CBOutcome A
  invoked : Bool
  breaker : CircuitBreaker

/-- CircuitBreaker.onSuccess. -/
def CircuitBreaker.onSuccess (cb : CircuitBreaker) : CircuitBreaker :=
  { cb with failures := 0, state := CBState.closed }

/-- CircuitBreaker.onFailure at the current time. -/
def CircuitBreaker.onFailure (cb : CircuitBreaker) (now : ℚ) : CircuitBreaker :=
  { cb with
    failures := cb.failures + 1,
    lastFailureTime := now,
    state := if cb.threshold ≤ cb.failures + 1 then CBState.opened else cb.state }

/-- The try block of execute: run the wrapped operation and record the
outcome.  The operation result is passed in, its invocation made explicit by
the invoked flag. -/
def CircuitBreaker.runOp (cb : CircuitBreaker) (now : ℚ) (fn : Except JsError A) :
    CBResult A :=
  match fn with
  | Except.ok a => ⟨CBOutcome.ok a, true, cb.onSuccess⟩
  | Except.error e => ⟨CBOutcome.err e, true, cb.onFailure now⟩

/-- Embeds CircuitBreaker.execute of src/utils/retryHelper.ts at the given
current time. -/
def CircuitBreaker.execute (cb : CircuitBreaker) (now : ℚ) (fn : Except JsError A) :
    CBResult A :=
  if cb.state = CBState.opened then
    if now - cb.lastFailureTime > cb.timeout then
      CircuitBreaker.runOp { cb with state := CBState.halfOpen } now fn
    else ⟨CBOutcome.breakerOpen, false, cb⟩
  else CircuitBreaker.runOp cb now fn

/-- Folds a sequence of failing execute calls (the wrapped operation throws
whenever it is invoked) over the breaker, one call per listed time. -/
def CircuitBreaker.execFailures (e : JsError) : CircuitBreaker → List ℚ → CircuitBreaker
  | cb, [] => cb
  | cb, t :: ts =>
    CircuitBreaker.execFailures e (cb.execute t (Except.error e : Except JsError Unit)).breaker ts

/-- Reachability invariant of the breaker: an opened or half-open breaker has
accumulated at least threshold failures. -/
@[reducible]
def CBInv (cb : CircuitBreaker) : Prop :=
  (cb.state = CBState.opened → cb.threshold ≤ cb.failures) ∧
  (cb.state = CBState.halfOpen → cb.threshold ≤ cb.failures)

/-- District status values of src/types (the global per-item status). -/
inductive DStatus where
  | pending
  | processing
  | completed
  | failed
deriving DecidableEq, Repr

/-- The stats block of ScrapeProgress in src/utils/progressTracker.ts.
Firestore increment counters are integers. -/
structure Stats where
  total : Int
  pending : Int
  processing : Int
  completed : Int
  failed : Int
deriving DecidableEq, Repr

/-- The stats written by ProgressTracker.initializeRun. -/
def initializeRunStats (totalDistricts : Int) : Stats :=
  ⟨totalDistricts, totalDistricts, 0, 0, 0⟩

/-- The stats update of ProgressTracker.startDistrict: processing += 1,
pending -= 1. -/
def startDistrictStats (s : Stats) : Stats :=
  { s with processing := s.processing + 1, pending := s.pending - 1 }

/-- The stats update of ProgressTracker.completeDistrict: processing -= 1,
completed += 1. -/
def completeDistrictStats (s : Stats) : Stats :=
  { s with processing := s.processing - 1, completed := s.completed + 1 }

/-- The stats update of ProgressTracker.failDistrict: processing -= 1,
failed += 1. -/
def failDistrictStats (s : Stats) : Stats :=
  { s with processing := s.processing - 1, failed := s.failed + 1 }

/-- One tracker operation touching the stats counters. -/
inductive TrackerOp where
  | start
  | complete
  | fail
deriving DecidableEq, Repr

/-- Applies one tracker operation to the stats. -/
def applyTrackerOp (s : Stats) : TrackerOp → Stats
  | TrackerOp.start => startDistrictStats s
  | TrackerOp.complete => completeDistrictStats s
  | TrackerOp.fail => failDistrictStats s

/-- Applies a sequence of tracker operations in order. -/
def applyTrackerOps (s : Stats) : List TrackerOp → Stats
  | [] => s
  | op :: ops => applyTrackerOps (applyTrackerOp s op) ops

/-- The conservation invariant of the stats block. -/
def statsConserved (s : Stats) : Prop :=
  s.pending + s.processing + s.completed + s.failed = s.total

/-- Number of operations of one kind in a sequence. -/
def countOp (o : TrackerOp) (ops : List TrackerOp) : Int :=
  ((ops.filter (fun x => x = o)).length : Int)

/-- One record of the district_logs collection, as much of DistrictLog as
resume reads. -/
structure DLog where
  districtId : String
  runId : String
  status : String
deriving DecidableEq, Repr

/-- Embeds ProgressTracker.getUnprocessedDistricts: district ids whose global
status is pending or processing, minus ids with a success log of the current
run.  The districts collection is a list of (document id, status). -/
def getUnprocessedDistricts (districts : List (String × DStatus))
    (logs : List DLog) (runId : String) : List String :=
  let processedIds :=
    (logs.filter (fun l => l.runId = runId ∧ l.status = "success")).map
      (fun l => l.districtId)
  ((districts.filter (fun d => d.2 = DStatus.pending ∨ d.2 = DStatus.processing)).map
      (fun d => d.1)).filter (fun id => ¬ processedIds.contains id)

/-- Embeds firebase.getPendingDistricts: districts whose status is pending
(the ordering by name is irrelevant to membership and left out). -/
def getPendingDistricts (districts : List (String × DStatus)) : List String :=
  (districts.filter (fun d => d.2 = DStatus.pending)).map (fun d => d.1)

/-- The item set the orchestrator run feeds to the batch loop: the loaded
districts (firebase.getPendingDistricts when the store is non-empty)
filtered to the unprocessed ids, as in Orchestrator.run. -/
def districtsToProcess (districts : List (String × DStatus))
    (logs : List DLog) (runId : String) : List String :=
  (getPendingDistricts districts).filter
    (fun id => (getUnprocessedDistricts districts logs runId).contains id)

/-- A contact row as built by the orchestrator (the fields the blocked
fallback writes). -/
structure Contact where
  firstName : String
  lastName : String
  title : String
  email : String
  confidence : Nat
deriving DecidableEq, Repr

/-- The department local parts of EmailGenerator.generateDepartmentEmails in
src/processors/emailGenerator.ts. -/
def departmentNames : List String :=
  ["facilities", "maintenance", "operations", "purchasing", "procurement",
   "business", "admin", "info", "contact", "superintendent", "hr",
   "humanresources", "finance", "accounting", "it", "technology"]

/-- Embeds EmailGenerator.generateDepartmentEmails. -/
def generateDepartmentEmails (domain : String) : List String :=
  departmentNames.map (fun dept => dept ++ "@" ++ domain)

/-- The contact substituted for each department email in the CAPTCHA branch
of Orchestrator.processDistrict. -/
def deptContact (email : String) : Contact :=
  ⟨"Department", "Contact", "General Contact", email, 60⟩

/-- The scrape phase of Orchestrator.processDistrict (lines 151-175): run the
scraper under withRetry with RetryConfigs.network; if the error escaping the
retry wrapper is the CAPTCHA_DETECTED blocked condition, substitute
department-email contacts (when a domain is known), otherwise rethrow. -/
def scrapePhase (scrapeOp : Nat → Except JsError (List Contact))
    (domain : Option String) : Except JsError (List Contact) :=
  match (withRetry scrapeOp RetryConfigsNetwork).result with
  | Except.ok cs => Except.ok cs
  | Except.error e =>
    if e.message = "CAPTCHA_DETECTED" then
      Except.ok (match domain with
        | some d => (generateDepartmentEmails d).map deptContact
        | none => [])
    else Except.error e

/-- How many times the scrape phase invokes the scraper stage. -/
def scrapePhaseInvocations (scrapeOp : Nat → Except JsError (List Contact)) : Nat :=
  (withRetry scrapeOp RetryConfigsNetwork).invocations

/-- The per-item status recorded by Orchestrator.processDistrict: an error
escaping the pipeline body reaches the catch-all, which records failed; an
ok flow reaches completeDistrict. -/
def itemStatusOf (r : Except JsError (List Contact)) : DStatus :=
  match r with
  | Except.ok _ => DStatus.completed
  | Except.error _ => DStatus.failed

/-- Per-item record written by the progress tracker during a batch. -/
structure ItemRecord where
  districtId : String
  status : DStatus
  errorMsg : Option String
deriving DecidableEq, Repr

/-- The catch block of Orchestrator.processDistrict: an exception escaping
the item pipeline is converted into a failed record carrying the error
message; success yields a completed record.  Nothing is rethrown. -/
def processDistrictRecord (pipeline : Except JsError Unit) (id : String) : ItemRecord :=
  match pipeline with
  | Except.ok _ => ⟨id, DStatus.completed, none⟩
  | Except.error e => ⟨id, DStatus.failed, some e.message⟩

/-- processDistrict as seen by processBatch: all exceptions are handled
inside, so the call itself never throws. -/
def processDistrictCall (pipeline : String → Except JsError Unit) (id : String) :
    Except JsError ItemRecord :=
  Except.ok (processDistrictRecord (pipeline id) id)

/-- Sequencing of item handlers in which an escaped exception would abort
the remaining items: the semantics of an unhandled rejection in the batch. -/
def runItems (f : String → Except JsError ItemRecord) :
    List String → Except JsError (List ItemRecord)
  | [] => Except.ok []
  | id :: ids =>
    match f id with
    | Except.error e => Except.error e
    | Except.ok r =>
      match runItems f ids with
      | Except.error e => Except.error e
      | Except.ok rs => Except.ok (r :: rs)

/-- Embeds Orchestrator.processBatch over one batch of district ids. -/
def processBatch (pipeline : String → Except JsError Unit) (batch : List String) :
    Except JsError (List ItemRecord) :=
  runItems (processDistrictCall pipeline) batch

/-- The batch loop of Orchestrator.run: batches run strictly in sequence and
an escaped exception would abort the remaining batches. -/
def runBatches (pipeline : String → Except JsError Unit) :
    List (List String) → Except JsError (List (List ItemRecord))
  | [] => Except.ok []
  | b :: bs =>
    match processBatch pipeline b with
    | Except.error e => Except.error e
    | Except.ok rs =>
      match runBatches pipeline bs with
      | Except.error e => Except.error e
      | Except.ok rss => Except.ok (rs :: rss)

/-- One token bucket of the RateLimiter: a float token count and the time of
the last refill, in milliseconds. -/
structure Bucket where
  tokens : ℚ
  lastRefill : ℚ
deriving DecidableEq, Repr

/-- The refill step shared by RateLimiter.refill and refillDomain:
tokens = min(maxTokens, tokens + elapsedSeconds * refillRate). -/
def refillBucket (maxTokens refillRate : ℚ) (b : Bucket) (now : ℚ) : Bucket :=
  ⟨ratMin maxTokens (b.tokens + (now - b.lastRefill) / 1000 * refillRate), now⟩

/-- The RateLimiter state: global bucket, per-domain buckets (an association
list keyed by hostname), and the constructor parameters. -/
structure RateLimiter where
  globalBucket : Bucket
  domainBuckets : List (String × Bucket)
  maxTokens : ℚ
  refillRate : ℚ
deriving DecidableEq, Repr

/-- Looks up a domain bucket. -/
def RateLimiter.findDomain (rl : RateLimiter) (d : String) : Option Bucket :=
  (rl.domainBuckets.lookup d)

/-- Replaces (or inserts) the bucket of one domain. -/
def RateLimiter.setDomain (rl : RateLimiter) (d : String) (b : Bucket) : RateLimiter :=
  { rl with domainBuckets := (d, b) :: rl.domainBuckets.filter (fun p => p.1 ≠ d) }

/-- The domain-bucket initialisation at the top of waitForToken: a missing
bucket is created full, stamped with the current time. -/
def RateLimiter.initDomain (rl : RateLimiter) (d : String) (now : ℚ) : RateLimiter :=
  match rl.findDomain d with
  | some _ => rl
  | none => rl.setDomain d ⟨rl.maxTokens, now⟩

/-- The domain half of waitForToken: refill the domain bucket at the time
the wait loop exits, then deduct one token.  tExit is the instant at which
the loop observed at least one token. -/
def RateLimiter.acquireDomainPhase (rl : RateLimiter) (d : String) (tExit : ℚ) :
    RateLimiter :=
  match rl.findDomain d with
  | none => rl
  | some b =>
    let b := refillBucket rl.maxTokens rl.refillRate b tExit
    rl.setDomain d ⟨b.tokens - 1, b.lastRefill⟩

/-- The global half of waitForToken: refill the global bucket at the time
the wait loop exits, then deduct one token. -/
def RateLimiter.acquireGlobalPhase (rl : RateLimiter) (tExit : ℚ) : RateLimiter :=
  let g := refillBucket rl.maxTokens rl.refillRate rl.globalBucket tExit
  { rl with globalBucket := ⟨g.tokens - 1, g.lastRefill⟩ }

/-- Embeds RateLimiter.waitForToken for a URL with hostname d: initialise
the domain bucket if needed (at time t0), acquire from the domain bucket
(wait loop exits at t1), then acquire from the global bucket (wait loop
exits at t2).  With no parseable hostname only the global half runs. -/
def RateLimiter.waitForToken (rl : RateLimiter) (domain : Option String)
    (t0 t1 t2 : ℚ) : RateLimiter :=
  match domain with
  | none => rl.acquireGlobalPhase t2
  | some d => ((rl.initDomain d t0).acquireDomainPhase d t1).acquireGlobalPhase t2

/-- One lifecycle event of a single token bucket: a refill observation at a
time, or a token acquire whose wait loop exits at a time.  The acquire
deducts only when a full token is present, which is the loop exit
condition. -/
inductive BucketOp where
  | refillAt (t : ℚ)
  | acquireAt (t : ℚ)
deriving DecidableEq, Repr

/-- Applies one bucket event. -/
def applyBucketOp (maxTokens refillRate : ℚ) (b : Bucket) : BucketOp → Bucket
  | BucketOp.refillAt t => refillBucket maxTokens refillRate b t
  | BucketOp.acquireAt t =>
    let b := refillBucket maxTokens refillRate b t
    if 1 ≤ b.tokens then ⟨b.tokens - 1, b.lastRefill⟩ else b

/-- Applies a sequence of bucket events in order. -/
def applyBucketOps (maxTokens refillRate : ℚ) (b : Bucket) : List BucketOp → Bucket
  | [] => b
  | op :: ops => applyBucketOps maxTokens refillRate (applyBucketOp maxTokens refillRate b op) ops

/-- The time of a bucket event. -/
def bucketOpTime : BucketOp → ℚ
  | BucketOp.refillAt t => t
  | BucketOp.acquireAt t => t

/-- Date.now() is monotone: every event time is at least the bucket's last
refill time when the event is applied. -/
def timesValid (maxTokens refillRate : ℚ) (b : Bucket) : List BucketOp → Prop
  | [] => True
  | op :: ops => b.lastRefill ≤ bucketOpTime op ∧
      timesValid maxTokens refillRate (applyBucketOp maxTokens refillRate b op) ops

theorem ratPow_eq_pow (q : ℚ) (n : Nat) : ratPow q n = q ^ n := by
  induction n with
  | zero => simp [ratPow]
  | succ n ih => rw [ratPow, ih, pow_succ]

theorem ratMin_eq_min (a b : ℚ) : ratMin a b = min a b := by
  rw [ratMin, min_def]

theorem isRetryableError_nil (e : JsError) : isRetryableError e [] = true := by
  simp [isRetryableError]

theorem withRetryFrom_ok (op : Nat → Except JsError A) (opts : RetryOptions) (v : A) :
    ∀ (j a r : Nat), j ≤ r →
      (∀ i, i < j → ∃ e, op (a + i) = Except.error e ∧
        isRetryableError e opts.retryableErrors = true) →
      op (a + j) = Except.ok v →
      withRetryFrom op opts a r =
        ⟨Except.ok v, j + 1, (List.range j).map (fun i => retryDelay opts (a + i))⟩ := by
  intro j
  induction j with
  | zero =>
    intro a r _ _ hok
    rw [Nat.add_zero] at hok
    cases r with
    | zero => simp [withRetryFrom, hok]
    | succ r => simp [withRetryFrom, hok]
  | succ j ih =>
    intro a r hle hfail hok
    obtain ⟨r, rfl⟩ : ∃ s, r = s + 1 := ⟨r - 1, by omega⟩
    obtain ⟨e, he, hre⟩ := hfail 0 (Nat.succ_pos j)
    rw [Nat.add_zero] at he
    have hrec := ih (a + 1) r (by omega)
      (fun i hi => by
        have h := hfail (i + 1) (by omega)
        rwa [show a + (i + 1) = a + 1 + i by omega] at h)
      (by rw [show a + 1 + j = a + (j + 1) by omega]; exact hok)
    simp only [withRetryFrom, he, hre, if_true, hrec]
    have hfun : (fun i => retryDelay opts (a + 1 + i)) =
        (fun i => retryDelay opts (a + Nat.succ i)) := by
      funext i
      congr 1
      omega
    rw [List.range_succ_eq_map, List.map_cons, List.map_map, Function.comp_def, hfun]
    simp

theorem withRetryFrom_err (op : Nat → Except JsError A) (opts : RetryOptions) :
    ∀ (r a : Nat),
      (∀ i, i ≤ r → ∃ e, op (a + i) = Except.error e ∧
        isRetryableError e opts.retryableErrors = true) →
      ∃ e, op (a + r) = Except.error e ∧
        withRetryFrom op opts a r =
          ⟨Except.error e, r + 1, (List.range r).map (fun i => retryDelay opts (a + i))⟩ := by
  intro r
  induction r with
  | zero =>
    intro a hfail
    obtain ⟨e, he, _⟩ := hfail 0 (le_refl 0)
    rw [Nat.add_zero] at he
    exact ⟨e, by rw [Nat.add_zero]; exact he, by simp [withRetryFrom, he]⟩
  | succ r ih =>
    intro a hfail
    obtain ⟨e0, he0, hre0⟩ := hfail 0 (by omega)
    rw [Nat.add_zero] at he0
    obtain ⟨e, he, hrec⟩ := ih (a + 1) (fun i hi => by
      have h := hfail (i + 1) (by omega)
      rwa [show a + (i + 1) = a + 1 + i by omega] at h)
    refine ⟨e, by rwa [show a + (r + 1) = a + 1 + r by omega], ?_⟩
    simp only [withRetryFrom, he0, hre0, if_true, hrec]
    have hfun : (fun i => retryDelay opts (a + 1 + i)) =
        (fun i => retryDelay opts (a + Nat.succ i)) := by
      funext i
      congr 1
      omega
    rw [List.range_succ_eq_map, List.map_cons, List.map_map, Function.comp_def, hfun]
    simp

/-- Claim C1: an operation whose failures are all classified retryable,
failing exactly k times before succeeding, returns the success value after
exactly k + 1 invocations when maxRetries is at least k; when maxRetries is
below k, withRetry makes exactly maxRetries + 1 invocations and rethrows the
last observed error. -/
theorem C1_retry_exactness (A : Type) (op : Nat → Except JsError A) (m k : Nat) (v : A)
    (hfail : ∀ i, i < k → ∃ e, op i = Except.error e)
    (hok : op k = Except.ok v) :
    (k ≤ m →
      (withRetry op (optsWithMaxRetries m)).result = Except.ok v ∧
      (withRetry op (optsWithMaxRetries m)).invocations = k + 1) ∧
    (m < k →
      ∃ e, op m = Except.error e ∧
        (withRetry op (optsWithMaxRetries m)).result = Except.error e ∧
        (withRetry op (optsWithMaxRetries m)).invocations = m + 1) := by
  have hre : (optsWithMaxRetries m).retryableErrors = [] := rfl
  have hm : (optsWithMaxRetries m).maxRetries = m := rfl
  constructor
  · intro hkm
    have h := withRetryFrom_ok op (optsWithMaxRetries m) v k 0 m hkm
      (fun i hi => by
        obtain ⟨e, he⟩ := hfail i hi
        exact ⟨e, by rwa [Nat.zero_add], by rw [hre]; exact isRetryableError_nil e⟩)
      (by rwa [Nat.zero_add])
    unfold withRetry
    rw [hm, h]
    exact ⟨rfl, rfl⟩
  · intro hmk
    obtain ⟨e, he, hw⟩ := withRetryFrom_err op (optsWithMaxRetries m) m 0
      (fun i hi => by
        obtain ⟨e, he⟩ := hfail i (by omega)
        exact ⟨e, by rwa [Nat.zero_add], by rw [hre]; exact isRetryableError_nil e⟩)
    rw [Nat.zero_add] at he
    refine ⟨e, he, ?_⟩
    unfold withRetry
    rw [hm, hw]
    exact ⟨rfl, rfl⟩

theorem C1_retry_exactness_witness :
    (withRetry (fun i => if i < 2 then Except.error ⟨"boom", ["Error"]⟩
        else Except.ok (42 : Nat)) (optsWithMaxRetries 3)).result = Except.ok 42 ∧
    (withRetry (fun i => if i < 2 then Except.error ⟨"boom", ["Error"]⟩
        else Except.ok (42 : Nat)) (optsWithMaxRetries 3)).invocations = 2 + 1 := by
  have h := C1_retry_exactness Nat
    (fun i => if i < 2 then Except.error ⟨"boom", ["Error"]⟩ else Except.ok (42 : Nat))
    3 2 42
    (fun i hi => ⟨⟨"boom", ["Error"]⟩, by simp [hi]⟩)
    (by simp)
  exact h.1 (by omega)

/-- Claim C9: before the retry of a retryable failure at attempt a, withRetry
sleeps exactly min(maxDelay, initialDelay * backoffFactor ^ a) milliseconds;
the recorded delay list matches that schedule both when a later attempt
succeeds and when retries are exhausted, and no delay follows the final
failing attempt, whose error is rethrown. -/
theorem C9_backoff_schedule (A : Type) (op : Nat → Except JsError A) (opts : RetryOptions)
    (hretry : ∀ i e, op i = Except.error e →
      isRetryableError e opts.retryableErrors = true) :
    (∀ a, retryDelay opts a =
      min opts.maxDelay (opts.initialDelay * opts.backoffFactor ^ a)) ∧
    (∀ k v, k ≤ opts.maxRetries → (∀ i, i < k → ∃ e, op i = Except.error e) →
      op k = Except.ok v →
      (withRetry op opts).delays =
        (List.range k).map
          (fun a => min opts.maxDelay (opts.initialDelay * opts.backoffFactor ^ a))) ∧
    ((∀ i, i ≤ opts.maxRetries → ∃ e, op i = Except.error e) →
      (withRetry op opts).delays =
        (List.range opts.maxRetries).map
          (fun a => min opts.maxDelay (opts.initialDelay * opts.backoffFactor ^ a)) ∧
      ∃ e, op opts.maxRetries = Except.error e ∧
        (withRetry op opts).result = Except.error e) := by
  have hmin : ∀ a, retryDelay opts a =
      min opts.maxDelay (opts.initialDelay * opts.backoffFactor ^ a) := by
    intro a
    unfold retryDelay
    rw [ratMin_eq_min, ratPow_eq_pow, min_comm]
  refine ⟨hmin, ?_, ?_⟩
  · intro k v hk hfail hok
    have h := withRetryFrom_ok op opts v k 0 opts.maxRetries hk
      (fun i hi => by
        obtain ⟨e, he⟩ := hfail i hi
        exact ⟨e, by rwa [Nat.zero_add], hretry i e he⟩)
      (by rwa [Nat.zero_add])
    unfold withRetry
    rw [h]
    show (List.range k).map (fun i => retryDelay opts (0 + i)) = _
    simp only [Nat.zero_add, hmin]
  · intro hfail
    obtain ⟨e, he, hw⟩ := withRetryFrom_err op opts opts.maxRetries 0
      (fun i hi => by
        obtain ⟨e, he⟩ := hfail i hi
        exact ⟨e, by rwa [Nat.zero_add], hretry i e he⟩)
    rw [Nat.zero_add] at he
    unfold withRetry
    rw [hw]
    refine ⟨?_, e, he, rfl⟩
    show (List.range opts.maxRetries).map (fun i => retryDelay opts (0 + i)) = _
    simp only [Nat.zero_add, hmin]

theorem C9_backoff_schedule_witness :
    (withRetry (fun _ => (Except.error ⟨"etimedout", ["Error"]⟩ : Except JsError Nat))
        RetryConfigsFile).delays = [100, 200] ∧
    (withRetry (fun _ => (Except.error ⟨"etimedout", ["Error"]⟩ : Except JsError Nat))
        RetryConfigsFile).result = Except.error ⟨"etimedout", ["Error"]⟩ := by
  have h := (C9_backoff_schedule Nat
    (fun _ => (Except.error ⟨"etimedout", ["Error"]⟩ : Except JsError Nat))
    RetryConfigsFile
    (fun i e he => by
      have : e = ⟨"etimedout", ["Error"]⟩ := by
        exact (Except.error.injEq _ _).mp he.symm
      rw [this]
      decide)).2.2
    (fun i _ => ⟨⟨"etimedout", ["Error"]⟩, rfl⟩)
  obtain ⟨hd, e, he, hr⟩ := h
  have he2 : e = ⟨"etimedout", ["Error"]⟩ := (Except.error.injEq _ _).mp he.symm
  constructor
  · rw [hd]
    norm_num [RetryConfigsFile, List.range_succ]
  · rw [hr, he2]

/-- Claim C10: an Error whose lower-cased message contains one of the
transient keywords is always retryable; otherwise, with the empty
retryableErrors list (the default, shared by every RetryConfigs preset) every
error is retryable, while with a non-empty list an error is retryable iff it
is an instance of a listed class, and a non-retryable error is rethrown by
withRetry after a single invocation. -/
theorem C10_retry_classification (e : JsError) (rs : List String) :
    (messageIsTransient e.message = true → isRetryableError e rs = true) ∧
    (rs = [] → isRetryableError e rs = true) ∧
    (messageIsTransient e.message = false → rs ≠ [] →
      (isRetryableError e rs = true ↔ ∃ c ∈ rs, c ∈ e.classes)) ∧
    (DEFAULT_OPTIONS.retryableErrors = [] ∧
      RetryConfigsNetwork.retryableErrors = [] ∧
      RetryConfigsDatabase.retryableErrors = [] ∧
      RetryConfigsApi.retryableErrors = [] ∧
      RetryConfigsFile.retryableErrors = []) ∧
    (∀ (A : Type) (op : Nat → Except JsError A) (opts : RetryOptions),
      op 0 = Except.error e → isRetryableError e opts.retryableErrors = false →
      (withRetry op opts).result = Except.error e ∧
      (withRetry op opts).invocations = 1) := by
  refine ⟨?_, ?_, ?_, ⟨rfl, rfl, rfl, rfl, rfl⟩, ?_⟩
  · intro h
    simp [isRetryableError, h]
  · intro h
    subst h
    exact isRetryableError_nil e
  · intro h hne
    have hlen : 0 < rs.length := List.length_pos.mpr hne
    simp [isRetryableError, h, hlen, List.any_eq_true]
  · intro A op opts hop hfalse
    unfold withRetry
    cases hmr : opts.maxRetries with
    | zero => simp [withRetryFrom, hop]
    | succ r => simp [withRetryFrom, hop, hfalse]

theorem C10_retry_classification_witness :
    isRetryableError ⟨"validation failed", ["ValidationError", "Error"]⟩ ["TypeError"]
      = false ∧
    (withRetry (fun _ =>
        (Except.error ⟨"validation failed", ["ValidationError", "Error"]⟩ :
          Except JsError Nat))
      { DEFAULT_OPTIONS with retryableErrors := ["TypeError"] }).invocations = 1 := by
  have h := (C10_retry_classification
    ⟨"validation failed", ["ValidationError", "Error"]⟩ ["TypeError"]).2.2.2.2 Nat
    (fun _ => (Except.error ⟨"validation failed", ["ValidationError", "Error"]⟩ :
      Except JsError Nat))
    { DEFAULT_OPTIONS with retryableErrors := ["TypeError"] }
    rfl (by decide)
  exact ⟨by decide, h.2⟩

theorem execFailures_append (e : JsError) :
    ∀ (xs : List ℚ) (cb : CircuitBreaker) (ys : List ℚ),
      CircuitBreaker.execFailures e cb (xs ++ ys) =
      CircuitBreaker.execFailures e (CircuitBreaker.execFailures e cb xs) ys := by
  intro xs
  induction xs with
  | nil => intro cb ys; rfl
  | cons x xs ih =>
    intro cb ys
    rw [List.cons_append, CircuitBreaker.execFailures, CircuitBreaker.execFailures, ih]

theorem closedStep (e : JsError) (cb : CircuitBreaker) (t : ℚ)
    (hs : cb.state = CBState.closed) :
    (cb.execute t (Except.error e : Except JsError Unit)).breaker = cb.onFailure t := by
  unfold CircuitBreaker.execute
  rw [if_neg (by rw [hs]; intro h; cases h)]
  rfl

theorem execFailures_progress (e : JsError) :
    ∀ (ts : List ℚ) (cb : CircuitBreaker), cb.state = CBState.closed →
      cb.failures + ts.length < cb.threshold →
      (CircuitBreaker.execFailures e cb ts).state = CBState.closed ∧
      (CircuitBreaker.execFailures e cb ts).failures = cb.failures + ts.length ∧
      (CircuitBreaker.execFailures e cb ts).threshold = cb.threshold ∧
      (CircuitBreaker.execFailures e cb ts).timeout = cb.timeout := by
  intro ts
  induction ts with
  | nil =>
    intro cb hs _
    exact ⟨hs, by simp [CircuitBreaker.execFailures], rfl, rfl⟩
  | cons t ts ih =>
    intro cb hs hlt
    simp only [List.length_cons] at hlt
    have hnotop : ¬ cb.threshold ≤ cb.failures + 1 := by omega
    have honf_state : (cb.onFailure t).state = CBState.closed := by
      simp [CircuitBreaker.onFailure, hnotop, hs]
    have honf_f : (cb.onFailure t).failures = cb.failures + 1 := rfl
    have honf_th : (cb.onFailure t).threshold = cb.threshold := rfl
    have honf_to : (cb.onFailure t).timeout = cb.timeout := rfl
    rw [CircuitBreaker.execFailures, closedStep e cb t hs]
    obtain ⟨h1, h2, h3, h4⟩ := ih (cb.onFailure t) honf_state
      (by rw [honf_f, honf_th]; omega)
    refine ⟨h1, ?_, ?_, ?_⟩
    · rw [h2, honf_f]
      simp only [List.length_cons]
      omega
    · rw [h3, honf_th]
    · rw [h4, honf_to]

theorem runOp_inv (A : Type) (cb : CircuitBreaker) (now : ℚ) (fn : Except JsError A)
    (hcb : cb.state = CBState.closed ∨ cb.threshold ≤ cb.failures) :
    CBInv (cb.runOp now fn).breaker ∧
      (cb.runOp now fn).breaker.state ≠ CBState.halfOpen := by
  cases fn with
  | ok a =>
    show CBInv cb.onSuccess ∧ cb.onSuccess.state ≠ CBState.halfOpen
    have hst : cb.onSuccess.state = CBState.closed := rfl
    refine ⟨⟨fun h => ?_, fun h => ?_⟩, fun h => ?_⟩ <;> rw [hst] at h <;> cases h
  | error e =>
    show CBInv (cb.onFailure now) ∧ (cb.onFailure now).state ≠ CBState.halfOpen
    by_cases hth : cb.threshold ≤ cb.failures + 1
    · have hst : (cb.onFailure now).state = CBState.opened := by
        simp [CircuitBreaker.onFailure, hth]
      have hf : (cb.onFailure now).failures = cb.failures + 1 := rfl
      have hthr : (cb.onFailure now).threshold = cb.threshold := rfl
      refine ⟨⟨fun _ => ?_, fun h => ?_⟩, fun h => ?_⟩
      · rw [hf, hthr]
        exact hth
      · rw [hst] at h
        cases h
      · rw [hst] at h
        cases h
    · have hcl : cb.state = CBState.closed := by
        rcases hcb with h | h
        · exact h
        · exact absurd (Nat.le_succ_of_le h) hth
      have hst : (cb.onFailure now).state = CBState.closed := by
        simp [CircuitBreaker.onFailure, hth, hcl]
      refine ⟨⟨fun h => ?_, fun h => ?_⟩, fun h => ?_⟩ <;> rw [hst] at h <;> cases h

/-- Claim C2: from a fresh breaker with threshold t, t consecutive failing
calls open the breaker and stamp the last failure time; while open within
the timeout, execute returns the breaker-open error without invoking the
operation and without changing state; once the timeout has elapsed the one
probe runs: a successful probe closes the breaker and zeroes the failure
count, a failing probe re-opens it and restarts the timeout clock; the
breaker is never left half-open after a call, so exactly one probe runs per
expiry. -/
theorem C2_circuit_breaker_trip_reset :
    (∀ (t : Nat) (T : ℚ) (e : JsError) (ts : List ℚ) (tl : ℚ),
      ts.length + 1 = t →
      (CircuitBreaker.execFailures e (CircuitBreaker.mkNew t T) (ts ++ [tl])).state
          = CBState.opened ∧
      (CircuitBreaker.execFailures e (CircuitBreaker.mkNew t T) (ts ++ [tl])).failures = t ∧
      (CircuitBreaker.execFailures e (CircuitBreaker.mkNew t T) (ts ++ [tl])).lastFailureTime
          = tl ∧
      (CircuitBreaker.execFailures e (CircuitBreaker.mkNew t T) (ts ++ [tl])).threshold = t ∧
      (CircuitBreaker.execFailures e (CircuitBreaker.mkNew t T) (ts ++ [tl])).timeout = T) ∧
    (∀ (A : Type) (cb : CircuitBreaker) (now : ℚ) (fn : Except JsError A),
      cb.state = CBState.opened → now - cb.lastFailureTime ≤ cb.timeout →
      cb.execute now fn = ⟨CBOutcome.breakerOpen, false, cb⟩) ∧
    (∀ (A : Type) (cb : CircuitBreaker) (now : ℚ) (a : A),
      cb.state = CBState.opened → cb.timeout < now - cb.lastFailureTime →
      (cb.execute now (Except.ok a)).invoked = true ∧
      (cb.execute now (Except.ok a)).outcome = CBOutcome.ok a ∧
      (cb.execute now (Except.ok a)).breaker.state = CBState.closed ∧
      (cb.execute now (Except.ok a)).breaker.failures = 0) ∧
    (∀ (A : Type) (cb : CircuitBreaker) (now : ℚ) (e' : JsError),
      cb.state = CBState.opened → cb.timeout < now - cb.lastFailureTime → CBInv cb →
      (cb.execute now (Except.error e' : Except JsError A)).invoked = true ∧
      (cb.execute now (Except.error e' : Except JsError A)).breaker.state
          = CBState.opened ∧
      (cb.execute now (Except.error e' : Except JsError A)).breaker.lastFailureTime
          = now) ∧
    (∀ (t : Nat) (T : ℚ), CBInv (CircuitBreaker.mkNew t T)) ∧
    (∀ (A : Type) (cb : CircuitBreaker) (now : ℚ) (fn : Except JsError A),
      CBInv cb → CBInv (cb.execute now fn).breaker ∧
        (cb.execute now fn).breaker.state ≠ CBState.halfOpen) := by
  refine ⟨?_, ?_, ?_, ?_, ?_, ?_⟩
  · intro t T e ts tl hlen
    rw [execFailures_append]
    have hfresh : (CircuitBreaker.mkNew t T).state = CBState.closed := rfl
    obtain ⟨h1, h2, h3, h4⟩ := execFailures_progress e ts (CircuitBreaker.mkNew t T)
      hfresh (by simp [CircuitBreaker.mkNew]; omega)
    set cb1 := CircuitBreaker.execFailures e (CircuitBreaker.mkNew t T) ts with hcb1
    have h2f : cb1.failures = ts.length := by
      rw [h2]
      simp [CircuitBreaker.mkNew]
    have h3t : cb1.threshold = t := by
      rw [h3]; rfl
    have h4T : cb1.timeout = T := by
      rw [h4]; rfl
    have hfin : CircuitBreaker.execFailures e cb1 [tl]
        = (cb1.execute tl (Except.error e : Except JsError Unit)).breaker := rfl
    rw [hfin, closedStep e cb1 tl h1]
    have hth : cb1.threshold ≤ cb1.failures + 1 := by
      rw [h2f, h3t]; omega
    refine ⟨?_, ?_, rfl, ?_, ?_⟩
    · simp [CircuitBreaker.onFailure, hth]
    · show cb1.failures + 1 = t
      rw [h2f]; omega
    · show cb1.threshold = t
      exact h3t
    · show cb1.timeout = T
      exact h4T
  · intro A cb now fn hs hle
    unfold CircuitBreaker.execute
    rw [if_pos hs, if_neg (not_lt.mpr hle)]
  · intro A cb now a hs hlt
    unfold CircuitBreaker.execute
    rw [if_pos hs, if_pos hlt]
    exact ⟨rfl, rfl, rfl, rfl⟩
  · intro A cb now e' hs hlt hinv
    unfold CircuitBreaker.execute
    rw [if_pos hs, if_pos hlt]
    have hth : cb.threshold ≤ cb.failures + 1 := Nat.le_succ_of_le (hinv.1 hs)
    refine ⟨rfl, ?_, rfl⟩
    show ({ cb with state := CBState.halfOpen }.onFailure now).state = CBState.opened
    simp [CircuitBreaker.onFailure, hth]
  · intro t T
    exact ⟨fun h => (nomatch h), fun h => (nomatch h)⟩
  · intro A cb now fn hinv
    unfold CircuitBreaker.execute
    by_cases hs : cb.state = CBState.opened
    · rw [if_pos hs]
      by_cases ht : now - cb.lastFailureTime > cb.timeout
      · rw [if_pos ht]
        exact runOp_inv A { cb with state := CBState.halfOpen } now fn
          (Or.inr (hinv.1 hs))
      · rw [if_neg ht]
        exact ⟨hinv, by rw [hs]; exact fun h => nomatch h⟩
    · rw [if_neg hs]
      apply runOp_inv
      by_cases hcl : cb.state = CBState.closed
      · exact Or.inl hcl
      · have hho : cb.state = CBState.halfOpen := by
          cases hcs : cb.state with
          | closed => exact absurd hcs hcl
          | opened => exact absurd hcs hs
          | halfOpen => simp [hcs]
        exact Or.inr (hinv.2 hho)

theorem C2_circuit_breaker_trip_reset_witness :
    (CircuitBreaker.execFailures ⟨"boom", ["Error"]⟩ (CircuitBreaker.mkNew 2 10)
      ([1] ++ [2])).state = CBState.opened ∧
    CircuitBreaker.execute ⟨2, 2, CBState.opened, 2, 10⟩ 5
      (Except.ok (0 : Nat)) = ⟨CBOutcome.breakerOpen, false, ⟨2, 2, CBState.opened, 2, 10⟩⟩ ∧
    (CircuitBreaker.execute ⟨2, 2, CBState.opened, 2, 10⟩ 13
      (Except.ok (0 : Nat))).breaker.state = CBState.closed ∧
    (CircuitBreaker.execute ⟨2, 2, CBState.opened, 2, 10⟩ 13
      (Except.ok (0 : Nat))).breaker.failures = 0 ∧
    (CircuitBreaker.execute ⟨2, 2, CBState.opened, 2, 10⟩ 13
      (Except.error ⟨"boom", ["Error"]⟩ : Except JsError Nat)).breaker.state
        = CBState.opened ∧
    (CircuitBreaker.execute ⟨2, 2, CBState.opened, 2, 10⟩ 13
      (Except.error ⟨"boom", ["Error"]⟩ : Except JsError Nat)).breaker.lastFailureTime
        = 13 := by
  have h := C2_circuit_breaker_trip_reset
  have hinv : CBInv ⟨2, 2, CBState.opened, 2, 10⟩ :=
    ⟨fun _ => le_refl 2, fun hh => by cases hh⟩
  have h5 : ((5 : ℚ) - 2 ≤ 10) := by norm_num
  have h13 : ((10 : ℚ) < 13 - 2) := by norm_num
  refine ⟨(h.1 2 10 ⟨"boom", ["Error"]⟩ [1] 2 rfl).1, ?_, ?_, ?_, ?_, ?_⟩
  · exact h.2.1 Nat ⟨2, 2, CBState.opened, 2, 10⟩ 5 (Except.ok 0) rfl h5
  · exact (h.2.2.1 Nat ⟨2, 2, CBState.opened, 2, 10⟩ 13 0 rfl h13).2.2.1
  · exact (h.2.2.1 Nat ⟨2, 2, CBState.opened, 2, 10⟩ 13 0 rfl h13).2.2.2
  · exact (h.2.2.2.1 Nat ⟨2, 2, CBState.opened, 2, 10⟩ 13 ⟨"boom", ["Error"]⟩
      rfl h13 hinv).2.1
  · exact (h.2.2.2.1 Nat ⟨2, 2, CBState.opened, 2, 10⟩ 13 ⟨"boom", ["Error"]⟩
      rfl h13 hinv).2.2



theorem countOp_cons (o p : TrackerOp) (ops : List TrackerOp) :
    countOp o (p :: ops) = (if p = o then 1 else 0) + countOp o ops := by
  by_cases h : p = o
  · simp [countOp, List.filter, h]
    omega
  · simp [countOp, List.filter, h]

theorem applyTrackerOps_fields :
    ∀ (ops : List TrackerOp) (s : Stats),
      (applyTrackerOps s ops).total = s.total ∧
      (applyTrackerOps s ops).pending = s.pending - countOp TrackerOp.start ops ∧
      (applyTrackerOps s ops).processing = s.processing + countOp TrackerOp.start ops
        - countOp TrackerOp.complete ops - countOp TrackerOp.fail ops ∧
      (applyTrackerOps s ops).completed = s.completed + countOp TrackerOp.complete ops ∧
      (applyTrackerOps s ops).failed = s.failed + countOp TrackerOp.fail ops := by
  intro ops
  induction ops with
  | nil =>
    intro s
    refine ⟨rfl, ?_, ?_, ?_, ?_⟩ <;> simp [applyTrackerOps, countOp]
  | cons op ops ih =>
    intro s
    obtain ⟨h1, h2, h3, h4, h5⟩ := ih (applyTrackerOp s op)
    have hstep : applyTrackerOps s (op :: ops)
        = applyTrackerOps (applyTrackerOp s op) ops := rfl
    rw [hstep]
    cases op <;>
      refine ⟨?_, ?_, ?_, ?_, ?_⟩ <;>
      simp only [h1, h2, h3, h4, h5, countOp_cons] <;>
      simp [applyTrackerOp, startDistrictStats, completeDistrictStats,
        failDistrictStats] <;>
      omega

/-- Claim C3: initializeRun establishes pending + processing + completed +
failed = total; startDistrict, completeDistrict and failDistrict each
preserve the sum, so it holds after every operation sequence; once every one
of the total items has been started and then completed or failed,
completed + failed = total and pending = processing = 0. -/
theorem C3_stats_conservation (total : Int) (ops : List TrackerOp) :
    statsConserved (initializeRunStats total) ∧
    (∀ s, statsConserved s →
      statsConserved (startDistrictStats s) ∧
      statsConserved (completeDistrictStats s) ∧
      statsConserved (failDistrictStats s)) ∧
    statsConserved (applyTrackerOps (initializeRunStats total) ops) ∧
    (countOp TrackerOp.start ops = total →
      countOp TrackerOp.complete ops + countOp TrackerOp.fail ops = total →
      (applyTrackerOps (initializeRunStats total) ops).completed
          + (applyTrackerOps (initializeRunStats total) ops).failed
          = (applyTrackerOps (initializeRunStats total) ops).total ∧
      (applyTrackerOps (initializeRunStats total) ops).pending = 0 ∧
      (applyTrackerOps (initializeRunStats total) ops).processing = 0) := by
  obtain ⟨h1, h2, h3, h4, h5⟩ := applyTrackerOps_fields ops (initializeRunStats total)
  have hinit : statsConserved (initializeRunStats total) := by
    simp [statsConserved, initializeRunStats]
  refine ⟨hinit, ?_, ?_, ?_⟩
  · intro s hs
    unfold statsConserved at *
    refine ⟨?_, ?_, ?_⟩ <;>
      simp [startDistrictStats, completeDistrictStats, failDistrictStats] <;>
      omega
  · unfold statsConserved
    simp only [h1, h2, h3, h4, h5]
    simp only [initializeRunStats]
    omega
  · intro hstart hdone
    refine ⟨?_, ?_, ?_⟩ <;>
      simp only [h1, h2, h3, h4, h5] <;>
      simp only [initializeRunStats] <;>
      omega

theorem C3_stats_conservation_witness :
    (applyTrackerOps (initializeRunStats 2)
      [TrackerOp.start, TrackerOp.complete, TrackerOp.start, TrackerOp.fail]).completed
      + (applyTrackerOps (initializeRunStats 2)
      [TrackerOp.start, TrackerOp.complete, TrackerOp.start, TrackerOp.fail]).failed
      = (applyTrackerOps (initializeRunStats 2)
      [TrackerOp.start, TrackerOp.complete, TrackerOp.start, TrackerOp.fail]).total ∧
    (applyTrackerOps (initializeRunStats 2)
      [TrackerOp.start, TrackerOp.complete, TrackerOp.start, TrackerOp.fail]).pending = 0 ∧
    (applyTrackerOps (initializeRunStats 2)
      [TrackerOp.start, TrackerOp.complete, TrackerOp.start, TrackerOp.fail]).processing
      = 0 := by
  have h := C3_stats_conservation 2
    [TrackerOp.start, TrackerOp.complete, TrackerOp.start, TrackerOp.fail]
  exact h.2.2.2 (by decide) (by decide)

/-- Claim C4: membership in getUnprocessedDistricts is exactly global status
pending or processing minus ids carrying a success log of the current run;
in the 5-item scenario with items 1-3 completed globally by a prior run the
unprocessed set is exactly 4 and 5, and the set of items fed to the
processing pipeline (whose acquisition stage runs) excludes items 1-3. -/
theorem C4_resumability :
    (∀ (districts : List (String × DStatus)) (logs : List DLog) (runId id : String),
      id ∈ getUnprocessedDistricts districts logs runId ↔
        ((∃ st, (id, st) ∈ districts ∧
            (st = DStatus.pending ∨ st = DStatus.processing)) ∧
         ¬ ∃ l, l ∈ logs ∧ l.runId = runId ∧ l.status = "success" ∧
            l.districtId = id)) ∧
    getUnprocessedDistricts
      [("1", DStatus.completed), ("2", DStatus.completed), ("3", DStatus.completed),
       ("4", DStatus.pending), ("5", DStatus.pending)]
      [⟨"1", "run_old", "success"⟩, ⟨"2", "run_old", "success"⟩,
       ⟨"3", "run_old", "success"⟩] "run_new" = ["4", "5"] ∧
    districtsToProcess
      [("1", DStatus.completed), ("2", DStatus.completed), ("3", DStatus.completed),
       ("4", DStatus.pending), ("5", DStatus.pending)]
      [⟨"1", "run_old", "success"⟩, ⟨"2", "run_old", "success"⟩,
       ⟨"3", "run_old", "success"⟩] "run_new" = ["4", "5"] ∧
    ¬ "1" ∈ districtsToProcess
      [("1", DStatus.completed), ("2", DStatus.completed), ("3", DStatus.completed),
       ("4", DStatus.pending), ("5", DStatus.pending)]
      [⟨"1", "run_old", "success"⟩, ⟨"2", "run_old", "success"⟩,
       ⟨"3", "run_old", "success"⟩] "run_new" ∧
    ¬ "2" ∈ districtsToProcess
      [("1", DStatus.completed), ("2", DStatus.completed), ("3", DStatus.completed),
       ("4", DStatus.pending), ("5", DStatus.pending)]
      [⟨"1", "run_old", "success"⟩, ⟨"2", "run_old", "success"⟩,
       ⟨"3", "run_old", "success"⟩] "run_new" ∧
    ¬ "3" ∈ districtsToProcess
      [("1", DStatus.completed), ("2", DStatus.completed), ("3", DStatus.completed),
       ("4", DStatus.pending), ("5", DStatus.pending)]
      [⟨"1", "run_old", "success"⟩, ⟨"2", "run_old", "success"⟩,
       ⟨"3", "run_old", "success"⟩] "run_new" := by
  refine ⟨?_, by decide, by decide, by decide, by decide, by decide⟩
  intro districts logs runId id
  unfold getUnprocessedDistricts
  simp only [List.mem_filter, List.mem_map, decide_eq_true_iff, List.elem_iff]
  aesop

theorem C4_resumability_witness :
    "4" ∈ getUnprocessedDistricts
      [("1", DStatus.completed), ("2", DStatus.completed), ("3", DStatus.completed),
       ("4", DStatus.pending), ("5", DStatus.pending)]
      [⟨"1", "run_old", "success"⟩, ⟨"2", "run_old", "success"⟩,
       ⟨"3", "run_old", "success"⟩] "run_new" := by
  apply (C4_resumability.1
    [("1", DStatus.completed), ("2", DStatus.completed), ("3", DStatus.completed),
     ("4", DStatus.pending), ("5", DStatus.pending)]
    [⟨"1", "run_old", "success"⟩, ⟨"2", "run_old", "success"⟩,
     ⟨"3", "run_old", "success"⟩] "run_new" "4").mpr
  refine ⟨⟨DStatus.pending, by decide, Or.inl rfl⟩, ?_⟩
  intro h
  obtain ⟨l, hl, hrid, hsu, hid⟩ := h
  simp at hl
  rcases hl with h1 | h2 | h3 <;> subst_vars <;> simp_all

/-- Claim C5 counterexample: a scraper stage that always raises the blocked
CAPTCHA_DETECTED condition is invoked six times by the orchestrator's scrape
phase (withRetry with RetryConfigs.network retries it five times), not once:
the blocked condition does not suppress retries of the acquisition stage. -/
theorem C5_blocked_fallback_counterexample :
    scrapePhaseInvocations
      (fun _ => Except.error ⟨"CAPTCHA_DETECTED", ["Error"]⟩) = 6 ∧
    scrapePhaseInvocations
      (fun _ => Except.error ⟨"CAPTCHA_DETECTED", ["Error"]⟩) ≠ 1 := by
  decide

/-- Claim C5 as amended: the CAPTCHA_DETECTED error is classified retryable
under the default configuration, so the acquisition stage is retried
maxRetries times (six invocations in total with RetryConfigs.network); once
retries are exhausted the error escapes the retry wrapper and the
orchestrator substitutes generated department-email contacts with confidence
60, and the item completes rather than fails. -/
theorem C5_blocked_fallback (op : Nat → Except JsError (List Contact)) (d : String)
    (hop : ∀ i, op i = Except.error ⟨"CAPTCHA_DETECTED", ["Error"]⟩) :
    scrapePhase op (some d)
      = Except.ok ((generateDepartmentEmails d).map deptContact) ∧
    (∀ c, c ∈ (generateDepartmentEmails d).map deptContact → c.confidence = 60) ∧
    scrapePhaseInvocations op = RetryConfigsNetwork.maxRetries + 1 ∧
    itemStatusOf (scrapePhase op (some d)) = DStatus.completed := by
  have hcap : isRetryableError ⟨"CAPTCHA_DETECTED", ["Error"]⟩
      RetryConfigsNetwork.retryableErrors = true := by decide
  obtain ⟨e, he, hw⟩ := withRetryFrom_err op RetryConfigsNetwork 5 0
    (fun i _ => ⟨⟨"CAPTCHA_DETECTED", ["Error"]⟩,
      by rw [Nat.zero_add]; exact hop i, hcap⟩)
  rw [Nat.zero_add] at he
  have he2 : e = ⟨"CAPTCHA_DETECTED", ["Error"]⟩ := by
    have h5 := hop 5
    rw [he] at h5
    exact (Except.error.injEq _ _).mp h5
  subst he2
  have hwr : withRetry op RetryConfigsNetwork
      = ⟨Except.error ⟨"CAPTCHA_DETECTED", ["Error"]⟩, 6,
         (List.range 5).map (fun i => retryDelay RetryConfigsNetwork (0 + i))⟩ := by
    unfold withRetry
    rw [show RetryConfigsNetwork.maxRetries = 5 from rfl, hw]
  have hsp : scrapePhase op (some d)
      = Except.ok ((generateDepartmentEmails d).map deptContact) := by
    unfold scrapePhase
    rw [hwr]
    rfl
  refine ⟨hsp, ?_, ?_, ?_⟩
  · intro c hc
    simp only [List.mem_map] at hc
    obtain ⟨x, _, rfl⟩ := hc
    rfl
  · unfold scrapePhaseInvocations
    rw [hwr]
    rfl
  · rw [hsp]
    rfl

theorem C5_blocked_fallback_witness :
    scrapePhase (fun _ => Except.error ⟨"CAPTCHA_DETECTED", ["Error"]⟩)
      (some "district.org")
      = Except.ok ((generateDepartmentEmails "district.org").map deptContact) ∧
    scrapePhaseInvocations (fun _ => Except.error ⟨"CAPTCHA_DETECTED", ["Error"]⟩)
      = RetryConfigsNetwork.maxRetries + 1 ∧
    itemStatusOf (scrapePhase (fun _ => Except.error ⟨"CAPTCHA_DETECTED", ["Error"]⟩)
      (some "district.org")) = DStatus.completed := by
  have h := C5_blocked_fallback
    (fun _ => Except.error ⟨"CAPTCHA_DETECTED", ["Error"]⟩)
    "district.org" (fun _ => rfl)
  exact ⟨h.1, h.2.2.1, h.2.2.2⟩

/-- Claim C6: every batch processes all of its items and never aborts: each
item yields exactly one record, a failing item is recorded as failed with
its error message, and every subsequent batch is still processed; no
per-item exception escapes processBatch or the batch loop. -/
theorem C6_per_item_isolation (pipeline : String → Except JsError Unit)
    (batches : List (List String)) :
    (∀ batch : List String, processBatch pipeline batch
      = Except.ok (batch.map (fun id => processDistrictRecord (pipeline id) id))) ∧
    (∀ id e, pipeline id = Except.error e →
      processDistrictRecord (pipeline id) id = ⟨id, DStatus.failed, some e.message⟩) ∧
    runBatches pipeline batches
      = Except.ok (batches.map
          (fun b => b.map (fun id => processDistrictRecord (pipeline id) id))) := by
  have hbatch : ∀ batch : List String, processBatch pipeline batch
      = Except.ok (batch.map (fun id => processDistrictRecord (pipeline id) id)) := by
    intro batch
    induction batch with
    | nil => rfl
    | cons id ids ih =>
      unfold processBatch at *
      rw [runItems, List.map_cons]
      rw [show processDistrictCall pipeline id
        = Except.ok (processDistrictRecord (pipeline id) id) from rfl]
      rw [ih]
  refine ⟨hbatch, ?_, ?_⟩
  · intro id e he
    unfold processDistrictRecord
    rw [he]
  · induction batches with
    | nil => rfl
    | cons b bs ih =>
      rw [runBatches, hbatch b, List.map_cons, ih]

theorem C6_per_item_isolation_witness :
    runBatches
      (fun id => if id = "b" then Except.error ⟨"boom", ["Error"]⟩ else Except.ok ())
      [["a", "b"], ["c"]]
      = Except.ok
          [[⟨"a", DStatus.completed, none⟩, ⟨"b", DStatus.failed, some "boom"⟩],
           [⟨"c", DStatus.completed, none⟩]] ∧
    processDistrictRecord
      ((fun id => if id = "b" then Except.error ⟨"boom", ["Error"]⟩ else Except.ok ()) "b")
      "b" = ⟨"b", DStatus.failed, some "boom"⟩ := by
  have h := C6_per_item_isolation
    (fun id => if id = "b" then Except.error ⟨"boom", ["Error"]⟩ else Except.ok ())
    [["a", "b"], ["c"]]
  constructor
  · rw [h.2.2]
    rfl
  · exact h.2.1 "b" ⟨"boom", ["Error"]⟩ (by rfl)

theorem initDomain_fields (rl : RateLimiter) (d : String) (t : ℚ) :
    (rl.initDomain d t).maxTokens = rl.maxTokens ∧
    (rl.initDomain d t).refillRate = rl.refillRate ∧
    (rl.initDomain d t).globalBucket = rl.globalBucket := by
  unfold RateLimiter.initDomain
  cases rl.findDomain d <;> exact ⟨rfl, rfl, rfl⟩

theorem setDomain_find (rl : RateLimiter) (d : String) (b : Bucket) :
    (rl.setDomain d b).findDomain d = some b := by
  simp [RateLimiter.setDomain, RateLimiter.findDomain, List.lookup]

theorem acquireDomainPhase_fields (rl : RateLimiter) (d : String) (t : ℚ) (b : Bucket)
    (hb : rl.findDomain d = some b) :
    (rl.acquireDomainPhase d t).findDomain d
      = some ⟨(refillBucket rl.maxTokens rl.refillRate b t).tokens - 1, t⟩ ∧
    (rl.acquireDomainPhase d t).globalBucket = rl.globalBucket ∧
    (rl.acquireDomainPhase d t).maxTokens = rl.maxTokens ∧
    (rl.acquireDomainPhase d t).refillRate = rl.refillRate := by
  unfold RateLimiter.acquireDomainPhase
  rw [hb]
  refine ⟨?_, rfl, rfl, rfl⟩
  exact setDomain_find rl d _

theorem acquireGlobalPhase_fields (rl : RateLimiter) (t : ℚ) :
    (rl.acquireGlobalPhase t).globalBucket
      = ⟨(refillBucket rl.maxTokens rl.refillRate rl.globalBucket t).tokens - 1, t⟩ ∧
    (∀ d, (rl.acquireGlobalPhase t).findDomain d = rl.findDomain d) := by
  exact ⟨rfl, fun d => rfl⟩

/-- Claim C7: with a parseable hostname, waitForToken acquires the domain
bucket first (a token is deducted from it while the global bucket is still
untouched) and the global bucket second; both deductions have happened once
the call returns, and the domain token spent in the first phase is not
refunded while the caller waits on the global bucket. -/
theorem C7_dual_bucket_acquire (rl : RateLimiter) (d : String) (t0 t1 t2 : ℚ)
    (b0 : Bucket)
    (hb : (rl.initDomain d t0).findDomain d = some b0)
    (hd1 : 1 ≤ (refillBucket rl.maxTokens rl.refillRate b0 t1).tokens)
    (hg1 : 1 ≤ (refillBucket rl.maxTokens rl.refillRate rl.globalBucket t2).tokens) :
    rl.waitForToken (some d) t0 t1 t2
      = ((rl.initDomain d t0).acquireDomainPhase d t1).acquireGlobalPhase t2 ∧
    ((rl.initDomain d t0).acquireDomainPhase d t1).findDomain d
      = some ⟨(refillBucket rl.maxTokens rl.refillRate b0 t1).tokens - 1, t1⟩ ∧
    ((rl.initDomain d t0).acquireDomainPhase d t1).globalBucket = rl.globalBucket ∧
    (rl.waitForToken (some d) t0 t1 t2).globalBucket
      = ⟨(refillBucket rl.maxTokens rl.refillRate rl.globalBucket t2).tokens - 1, t2⟩ ∧
    (rl.waitForToken (some d) t0 t1 t2).findDomain d
      = some ⟨(refillBucket rl.maxTokens rl.refillRate b0 t1).tokens - 1, t1⟩ := by
  obtain ⟨hM, hR, hG⟩ := initDomain_fields rl d t0
  have hdom := acquireDomainPhase_fields (rl.initDomain d t0) d t1 b0 hb
  rw [hM, hR] at hdom
  obtain ⟨hfind, hglob, hM2, hR2⟩ := hdom
  rw [hG] at hglob
  have hglobal := acquireGlobalPhase_fields
    ((rl.initDomain d t0).acquireDomainPhase d t1) t2
  refine ⟨rfl, hfind, hglob, ?_, ?_⟩
  · show (((rl.initDomain d t0).acquireDomainPhase d t1).acquireGlobalPhase t2).globalBucket
      = _
    rw [hglobal.1, hM2, hR2, hglob]
  · show (((rl.initDomain d t0).acquireDomainPhase d t1).acquireGlobalPhase t2).findDomain d
      = _
    rw [hglobal.2 d, hfind]

theorem C7_dual_bucket_acquire_witness :
    (RateLimiter.waitForToken ⟨⟨30, 0⟩, [], 30, 1/2⟩ (some "example.org") 0 0 0).globalBucket
      = ⟨(refillBucket 30 (1/2) ⟨30, 0⟩ 0).tokens - 1, 0⟩ ∧
    (RateLimiter.waitForToken ⟨⟨30, 0⟩, [], 30, 1/2⟩
        (some "example.org") 0 0 0).findDomain "example.org"
      = some ⟨(refillBucket 30 (1/2) ⟨30, 0⟩ 0).tokens - 1, 0⟩ := by
  have h := C7_dual_bucket_acquire ⟨⟨30, 0⟩, [], 30, 1/2⟩ "example.org" 0 0 0 ⟨30, 0⟩
    (by rfl)
    (by norm_num [refillBucket, ratMin])
    (by norm_num [refillBucket, ratMin])
  exact ⟨h.2.2.2.1, h.2.2.2.2⟩

theorem bucketStep_inv (M R : ℚ) (b : Bucket) (op : BucketOp)
    (hM : 0 ≤ M) (hR : 0 ≤ R) (h0 : 0 ≤ b.tokens) (h1 : b.tokens ≤ M)
    (ht : b.lastRefill ≤ bucketOpTime op) :
    0 ≤ (applyBucketOp M R b op).tokens ∧ (applyBucketOp M R b op).tokens ≤ M := by
  have hrefill : ∀ t, b.lastRefill ≤ t →
      0 ≤ (refillBucket M R b t).tokens ∧ (refillBucket M R b t).tokens ≤ M := by
    intro t htl
    unfold refillBucket
    rw [ratMin_eq_min]
    constructor
    · apply le_min hM
      apply add_nonneg h0
      apply mul_nonneg _ hR
      apply div_nonneg (sub_nonneg.mpr htl)
      norm_num
    · exact min_le_left _ _
  cases op with
  | refillAt t => exact hrefill t ht
  | acquireAt t =>
    obtain ⟨hr0, hrM⟩ := hrefill t ht
    simp only [applyBucketOp]
    by_cases hone : 1 ≤ (refillBucket M R b t).tokens
    · rw [if_pos hone]
      refine ⟨?_, ?_⟩
      · show 0 ≤ (refillBucket M R b t).tokens - 1
        linarith
      · show (refillBucket M R b t).tokens - 1 ≤ M
        linarith
    · rw [if_neg hone]
      exact ⟨hr0, hrM⟩

theorem bucketOps_inv (M R : ℚ) :
    ∀ (ops : List BucketOp) (b : Bucket), 0 ≤ M → 0 ≤ R →
      0 ≤ b.tokens → b.tokens ≤ M → timesValid M R b ops →
      ∀ n, 0 ≤ (applyBucketOps M R b (ops.take n)).tokens ∧
        (applyBucketOps M R b (ops.take n)).tokens ≤ M := by
  intro ops
  induction ops with
  | nil =>
    intro b _ _ h0 h1 _ n
    simp only [List.take_nil, applyBucketOps]
    exact ⟨h0, h1⟩
  | cons op ops ih =>
    intro b hM hR h0 h1 hv n
    cases n with
    | zero => exact ⟨h0, h1⟩
    | succ n =>
      rw [List.take_succ_cons]
      rw [show applyBucketOps M R b (op :: ops.take n)
        = applyBucketOps M R (applyBucketOp M R b op) (ops.take n) from rfl]
      obtain ⟨hs0, hs1⟩ := bucketStep_inv M R b op hM hR h0 h1 hv.1
      exact ih (applyBucketOp M R b op) hM hR hs0 hs1 hv.2 n

/-- Claim C8: starting from any bucket state within bounds (in particular a
freshly created bucket holding maxTokens, as both the global bucket and a
lazily initialised domain bucket do), every sequence of refill and acquire
events keeps the token count between 0 and maxTokens at every prefix, so
tokens never exceed capacity and are non-negative immediately after every
successful acquire; a missing domain bucket is created at capacity, and the
global half of waitForToken is exactly an acquire event on the global
bucket. -/
theorem C8_token_bounds (M R : ℚ) (ops : List BucketOp) (b : Bucket)
    (hM : 0 ≤ M) (hR : 0 ≤ R) (h0 : 0 ≤ b.tokens) (h1 : b.tokens ≤ M)
    (hv : timesValid M R b ops) :
    (∀ n, 0 ≤ (applyBucketOps M R b (ops.take n)).tokens ∧
      (applyBucketOps M R b (ops.take n)).tokens ≤ M) ∧
    (∀ (rl : RateLimiter) (d : String) (now : ℚ), rl.findDomain d = none →
      (rl.initDomain d now).findDomain d = some ⟨rl.maxTokens, now⟩) ∧
    (∀ (rl : RateLimiter) (t : ℚ),
      (rl.acquireGlobalPhase t).globalBucket
        = applyBucketOp rl.maxTokens rl.refillRate rl.globalBucket (BucketOp.acquireAt t)
      ∨ (refillBucket rl.maxTokens rl.refillRate rl.globalBucket t).tokens < 1) := by
  refine ⟨bucketOps_inv M R ops b hM hR h0 h1 hv, ?_, ?_⟩
  · intro rl d now hnone
    unfold RateLimiter.initDomain
    rw [hnone]
    exact setDomain_find rl d _
  · intro rl t
    by_cases hone : 1 ≤ (refillBucket rl.maxTokens rl.refillRate rl.globalBucket t).tokens
    · left
      simp only [RateLimiter.acquireGlobalPhase, applyBucketOp]
      rw [if_pos hone]
    · right
      exact lt_of_not_le hone

theorem C8_token_bounds_witness :
    0 ≤ (applyBucketOps 30 (1/2) ⟨30, 0⟩
      ([BucketOp.acquireAt 0, BucketOp.acquireAt 1000,
        BucketOp.refillAt 2000].take 3)).tokens ∧
    (applyBucketOps 30 (1/2) ⟨30, 0⟩
      ([BucketOp.acquireAt 0, BucketOp.acquireAt 1000,
        BucketOp.refillAt 2000].take 3)).tokens ≤ 30 := by
  have h := C8_token_bounds 30 (1/2)
    [BucketOp.acquireAt 0, BucketOp.acquireAt 1000, BucketOp.refillAt 2000]
    ⟨30, 0⟩ (by norm_num) (by norm_num) (by norm_num) (by norm_num)
    (by norm_num [timesValid, applyBucketOp, refillBucket, ratMin, bucketOpTime])
  exact h.1 3
